import Mathlib

/-!
Verification of the RideshareSimulation vehicle core

A shallow embedding of the vehicle state machine and incremental-motion
kinematics of the RideshareSimulation repository, together with proofs of
the spec's testable properties.

Embedded source files:
* `src/src/Vehicle.cpp` — `Vehicle::SetPassenger`, `Vehicle::SetPosition`,
  `Vehicle::ResetPathAndIndex`, and the whole `VehicleManager`
  (constructor, `ResetVehicleDestination`, `IncrementalMove`, `Drive`,
  `RequestPassenger`, `AssignPassenger`, `ArrivedAtPassenger`,
  `PassengerIntoVehicle`, `DropOffPassenger`).
* `src/src/BasicIntersection.h` — also carries `Vehicle::DropOffPassenger`
  (clears the passenger and the failure counter).
* `src/unnamed/part_000` — `BasicGraphics` coordinate-to-pixel adjustment.

Parts of the repository that the claims depend on but whose sources are not
in `src/` (the `RouteModel` lookup functions, `RoutePlanner::AStarSearch`,
the `Passenger` setters and the `Vehicle` trivial accessors from
`Vehicle.h`) are modelled from the spec; each such definition carries a
doc comment saying so.

C++ `double` arithmetic is modelled over `ℝ`; `std::vector::at` raising
`std::out_of_range` is modelled by `Option`.
-/

open scoped Classical

namespace Rideshare

/-- A map coordinate, `(x, y)` in degrees with `x` = longitude and `y` =
latitude; equality is exact, matching the exact floating equality used by
the source's arrival test. -/
structure Coordinate where
  x : ℝ
  y : ℝ

/-- Euclidean distance over the degree plane, exactly the formula of
`src/src/Vehicle.cpp` line 80:
`std::sqrt(std::pow(next_pos.x - pos.x, 2) + std::pow(next_pos.y - pos.y, 2))`. -/
noncomputable def euclid (pos next_pos : Coordinate) : ℝ :=
  Real.sqrt ((next_pos.x - pos.x) ^ 2 + (next_pos.y - pos.y) ^ 2)

/-- Two-argument arctangent, the model of C `std::atan2(y, x)`:
the argument of the complex number `x + y·i`. -/
noncomputable def atan2 (y x : ℝ) : ℝ :=
  Complex.arg ⟨x, y⟩

/-- Modelled from the spec (§3): a `Passenger` has an id, a start, a
destination, and a position that follows the carrying vehicle; the
render-only color and the `requested` flag are irrelevant to the claims
and omitted. `Passenger.h` / `Passenger.cpp` are not in `src/`. -/
structure Passenger where
  id : ℕ
  start : Coordinate
  destination : Coordinate
  position : Coordinate

/-- Modelled from the spec (§3, §9): `Passenger::SetPosition` updates the
passenger's position by value. -/
def Passenger.SetPosition (p : Passenger) (position : Coordinate) : Passenger :=
  { p with position := position }

/-- The five vehicle states of `VehicleState` (spec §3; `VehicleState.h`
is not in `src/` but the enumerators are used throughout
`src/src/Vehicle.cpp`). -/
inductive VehicleState where
  | no_passenger_requested
  | no_passenger_queued
  | passenger_queued
  | driving_passenger
  | waiting
deriving DecidableEq, Repr

/-- The mutable per-vehicle record (spec §3; the fields are the member
variables read and written by `src/src/Vehicle.cpp`). -/
structure Vehicle where
  id : ℕ
  position : Coordinate
  destination : Coordinate
  path : List Coordinate
  pathIndex : ℕ
  passenger : Option Passenger
  state : VehicleState
  failures : ℕ

/-- Embeds `Vehicle::SetPassenger` (src/src/Vehicle.cpp lines 6-11): store the
passenger and take over its destination. -/
def Vehicle.SetPassenger (v : Vehicle) (p : Passenger) : Vehicle :=
  { v with passenger := some p, destination := p.destination }

/-- Embeds `Vehicle::SetPosition` (src/src/Vehicle.cpp lines 13-19): set the
position and, when a passenger is carried, match its position to the
vehicle's. -/
def Vehicle.SetPosition (v : Vehicle) (position : Coordinate) : Vehicle :=
  { v with position := position,
           passenger := v.passenger.map (fun p => p.SetPosition position) }

/-- Modelled from the spec: `Vehicle::SetDestination` is declared in the
missing `Vehicle.h`; at every call site in `src/src/Vehicle.cpp` a path
reset either follows explicitly or the path is untouched fresh state, so
it is modelled as the plain field update. -/
def Vehicle.SetDestination (v : Vehicle) (destination : Coordinate) : Vehicle :=
  { v with destination := destination }

/-- Embeds `Vehicle::ResetPathAndIndex` (src/src/Vehicle.cpp lines 21-24). -/
def Vehicle.ResetPathAndIndex (v : Vehicle) : Vehicle :=
  { v with path := [], pathIndex := 0 }

/-- Embeds `Vehicle::IncrementPathIndex` (declared in the missing `Vehicle.h`;
modelled from the spec §4.D: the index advances by one on snap). -/
def Vehicle.IncrementPathIndex (v : Vehicle) : Vehicle :=
  { v with pathIndex := v.pathIndex + 1 }

/-- Embeds `Vehicle::DropOffPassenger` (src/src/BasicIntersection.h lines 44-50):
clear out the passenger and the failure counter. -/
def Vehicle.DropOffPassenger (v : Vehicle) : Vehicle :=
  { v with passenger := none, failures := 0 }

/-- Modelled from the spec (§3, §4.A): the `RouteModel` data the vehicle
manager consumes — the node coordinate table and the map bounds.
`RouteModel.h` / `RouteModel.cpp` are not in `src/`. -/
structure RouteModel where
  nodes : List Coordinate
  MinLat : ℝ
  MaxLat : ℝ
  MinLon : ℝ
  MaxLon : ℝ

/-- Modelled from the spec (§4.A): `closest_node(Coordinate)` returns the
node of minimum Euclidean distance, ties broken by lowest node index.  The
fold keeps the earlier node unless a strictly closer one appears, which
realises the lowest-index tie-break; on an empty node table (never the
case for a loaded map) the coordinate itself is returned. -/
noncomputable def RouteModel.FindClosestNode (m : RouteModel) (c : Coordinate) : Coordinate :=
  match m.nodes with
  | [] => c
  | n :: ns => ns.foldl (fun best cand => if euclid c cand < euclid c best then cand else best) n

/-- The vehicle manager state the claims touch: the route model and the
per-cycle travel distance (`model_` and `distance_per_cycle_`). -/
structure VehicleManager where
  model : RouteModel
  distance_per_cycle : ℝ

/-- The `VehicleManager` constructor's configuration of the step size
(src/src/Vehicle.cpp lines 33-40):
`distance_per_cycle_ = std::abs(model_->MaxLat() - model->MinLat()) / 1000.0`. -/
noncomputable def VehicleManager.ofModel (m : RouteModel) : VehicleManager :=
  { model := m, distance_per_cycle := |m.MaxLat - m.MinLat| / 1000 }

/-- Embeds `VehicleManager::GenerateNew` (src/src/Vehicle.cpp lines 42-59), for
one vehicle: position and destination are the nearest road nodes to the
two random draws `start` and `destination`; the fresh vehicle's remaining
fields are the defaults of the missing `Vehicle.h`, modelled from the
spec (§3, §4.D: initial state `NoPassengerRequested`, empty path, no
passenger, zero failures). -/
noncomputable def VehicleManager.GenerateNew (mgr : VehicleManager)
    (start destination : Coordinate) (id : ℕ) : Vehicle :=
  let nearest_start := mgr.model.FindClosestNode start
  let nearest_dest := mgr.model.FindClosestNode destination
  { id := id,
    position := ⟨nearest_start.x, nearest_start.y⟩,
    destination := ⟨nearest_dest.x, nearest_dest.y⟩,
    path := [],
    pathIndex := 0,
    passenger := none,
    state := VehicleState.no_passenger_requested,
    failures := 0 }

/-- Embeds `VehicleManager::ResetVehicleDestination` (src/src/Vehicle.cpp lines
61-73).  The source draws `model_->GetRandomMapPosition()` in the
`random` branch; the draw is passed in as the oracle value `rand`. -/
noncomputable def VehicleManager.ResetVehicleDestination (mgr : VehicleManager)
    (rand : Coordinate) (v : Vehicle) (random : Bool) : Vehicle :=
  let destination := if random then rand else v.destination
  let nearest_dest := mgr.model.FindClosestNode destination
  ((v.SetDestination ⟨nearest_dest.x, nearest_dest.y⟩)).ResetPathAndIndex

/-- Embeds `VehicleManager::IncrementalMove` (src/src/Vehicle.cpp lines 76-93).
`vehicle->Path().at(vehicle->PathIndex())` raises `std::out_of_range` when
the index is out of bounds; the exception is modelled by `none`. -/
noncomputable def VehicleManager.IncrementalMove (mgr : VehicleManager)
    (v : Vehicle) : Option Vehicle :=
  match v.path.get? v.pathIndex with
  | none => none
  | some next_pos =>
    let pos := v.position
    let distance := euclid pos next_pos
    if distance ≤ mgr.distance_per_cycle then
      some ((v.SetPosition ⟨next_pos.x, next_pos.y⟩).IncrementPathIndex)
    else
      let angle := atan2 (next_pos.y - pos.y) (next_pos.x - pos.x)
      let new_pos_x := pos.x + mgr.distance_per_cycle * Real.cos angle
      let new_pos_y := pos.y + mgr.distance_per_cycle * Real.sin angle
      some (v.SetPosition ⟨new_pos_x, new_pos_y⟩)

/-- The messages the vehicle manager sends to the ride matcher
(`RideMatcher.h` is not in `src/`; only the two calls made by
`src/src/Vehicle.cpp` are modelled). -/
inductive MatcherMsg where
  | VehicleRequestsPassenger (id : ℕ)
  | VehicleHasArrived (id : ℕ)
deriving DecidableEq, Repr

/-- Embeds `VehicleManager::RequestPassenger` (src/src/Vehicle.cpp lines
151-161): move to `no_passenger_queued` and ask the matcher for a
passenger (the matcher is modelled as present, i.e.
`ride_matcher_ != nullptr`). -/
def VehicleManager.RequestPassenger (v : Vehicle) : Vehicle × List MatcherMsg :=
  ({ v with state := VehicleState.no_passenger_queued },
   [MatcherMsg.VehicleRequestsPassenger v.id])

/-- Embeds `VehicleManager::ArrivedAtPassenger` (src/src/Vehicle.cpp lines
172-177): transition to waiting and notify the matcher. -/
def VehicleManager.ArrivedAtPassenger (v : Vehicle) : Vehicle × List MatcherMsg :=
  ({ v with state := VehicleState.waiting },
   [MatcherMsg.VehicleHasArrived v.id])

/-- Embeds `VehicleManager::AssignPassenger` (src/src/Vehicle.cpp lines 163-170):
set the destination to the pickup, align it to the nearest route node and
reset path and index, then mark the vehicle `passenger_queued`.  The
`rand` oracle of `ResetVehicleDestination` is unused because the call
passes `random = false`; an arbitrary coordinate is supplied. -/
noncomputable def VehicleManager.AssignPassenger (mgr : VehicleManager)
    (v : Vehicle) (position : Coordinate) : Vehicle :=
  let v₁ := v.SetDestination position
  let v₂ := mgr.ResetVehicleDestination ⟨0, 0⟩ v₁ false
  { v₂ with state := VehicleState.passenger_queued }

/-- Embeds `VehicleManager::PassengerIntoVehicle` (src/src/Vehicle.cpp lines
179-186): put the passenger into the vehicle (the vehicle takes over the
passenger's destination), align to the nearest route node and reset path
and index, then mark the vehicle `driving_passenger`. -/
noncomputable def VehicleManager.PassengerIntoVehicle (mgr : VehicleManager)
    (v : Vehicle) (p : Passenger) : Vehicle :=
  let v₁ := v.SetPassenger p
  let v₂ := mgr.ResetVehicleDestination ⟨0, 0⟩ v₁ false
  { v₂ with state := VehicleState.driving_passenger }

/-- Embeds `VehicleManager::DropOffPassenger` (src/src/Vehicle.cpp lines
188-199): clear the passenger and the failure counter, pick a new random
destination (the draw is the oracle `rand`), and return to
`no_passenger_requested`. -/
noncomputable def VehicleManager.DropOffPassenger (mgr : VehicleManager)
    (rand : Coordinate) (v : Vehicle) : Vehicle :=
  let v₁ := v.DropOffPassenger
  let v₂ := mgr.ResetVehicleDestination rand v₁ true
  { v₂ with state := VehicleState.no_passenger_requested }

/-- The body of one `Drive` iteration for one vehicle after the routing
step (src/src/Vehicle.cpp lines 120-146): request a passenger when needed,
wait or move, then run the arrival test.  The returned list collects the
matcher calls made during the iteration; `none` models the
`std::out_of_range` escape of `IncrementalMove`. -/
noncomputable def VehicleManager.DriveTickBody (mgr : VehicleManager)
    (rand : Coordinate) (v : Vehicle) : Option (Vehicle × List MatcherMsg) :=
  -- Request a passenger if don't have one yet
  let step₂ :=
    if v.state = VehicleState.no_passenger_requested then
      VehicleManager.RequestPassenger v
    else (v, [])
  let v₂ := step₂.1
  let msgs := step₂.2
  -- Drive to destination or wait, depending on state
  if v₂.state = VehicleState.waiting then some (v₂, msgs)
  else
    match mgr.IncrementalMove v₂ with
    | none => none
    | some v₃ =>
      -- Check if at destination
      if v₃.position = v₃.destination then
        if v₃.state = VehicleState.no_passenger_queued then
          -- Find a new random destination
          some (mgr.ResetVehicleDestination rand v₃ true, msgs)
        else if v₃.state = VehicleState.passenger_queued then
          -- Notify of arrival
          let step₄ := VehicleManager.ArrivedAtPassenger v₃
          some (step₄.1, msgs ++ step₄.2)
        else if v₃.state = VehicleState.driving_passenger then
          -- Drop-off passenger
          some (mgr.DropOffPassenger rand v₃, msgs)
        else some (v₃, msgs)
      else some (v₃, msgs)

/-- One `Drive` iteration for one vehicle (src/src/Vehicle.cpp lines
108-147).  `astar` is the oracle for `RoutePlanner::AStarSearch` (not in
`src/`): modelled from the spec §4.B, the search writes its resulting node
path to the vehicle and resets `path_index = 0`; an empty result means
unroutable.  `rand` is the oracle for the at most one
`GetRandomMapPosition()` draw a single iteration can make. -/
noncomputable def VehicleManager.DriveTick (mgr : VehicleManager)
    (astar : Vehicle → List Coordinate) (rand : Coordinate)
    (v : Vehicle) : Option (Vehicle × List MatcherMsg) :=
  -- Get a route if none yet given
  if v.path.isEmpty then
    let v₁ := { v with path := astar v, pathIndex := 0 }
    if v₁.path.isEmpty then
      -- TODO in source: Handle below if holding a passenger
      some (mgr.ResetVehicleDestination rand v₁ true, [])
    else mgr.DriveTickBody rand v₁
  else mgr.DriveTickBody rand v

/-- The per-vehicle states reachable through the vehicle manager's
operations: a freshly generated vehicle, a successful drive iteration, or
one of the matcher-invoked callbacks (`AssignPassenger`,
`PassengerIntoVehicle`) and the drop-off, each applicable at any time with
any oracle draws. -/
inductive Reachable (mgr : VehicleManager) (astar : Vehicle → List Coordinate) :
    Vehicle → Prop where
  | init (start destination : Coordinate) (id : ℕ) :
      Reachable mgr astar (mgr.GenerateNew start destination id)
  | tick (rand : Coordinate) (v w : Vehicle) (msgs : List MatcherMsg) :
      Reachable mgr astar v → mgr.DriveTick astar rand v = some (w, msgs) →
      Reachable mgr astar w
  | assign (position : Coordinate) (v : Vehicle) :
      Reachable mgr astar v → Reachable mgr astar (mgr.AssignPassenger v position)
  | intoVehicle (p : Passenger) (v : Vehicle) :
      Reachable mgr astar v → Reachable mgr astar (mgr.PassengerIntoVehicle v p)
  | dropOff (rand : Coordinate) (v : Vehicle) :
      Reachable mgr astar v → Reachable mgr astar (mgr.DropOffPassenger rand v)

/-- Like `Reachable`, but the callbacks respect the ride-matcher protocol:
`AssignPassenger` is only invoked on a vehicle that does not currently
carry a passenger (the matcher only assigns vehicles drawn from its open
queue, which a carrying vehicle is never in). -/
inductive ReachableProto (mgr : VehicleManager) (astar : Vehicle → List Coordinate) :
    Vehicle → Prop where
  | init (start destination : Coordinate) (id : ℕ) :
      ReachableProto mgr astar (mgr.GenerateNew start destination id)
  | tick (rand : Coordinate) (v w : Vehicle) (msgs : List MatcherMsg) :
      ReachableProto mgr astar v → mgr.DriveTick astar rand v = some (w, msgs) →
      ReachableProto mgr astar w
  | assign (position : Coordinate) (v : Vehicle) :
      ReachableProto mgr astar v → v.passenger = none →
      ReachableProto mgr astar (mgr.AssignPassenger v position)
  | intoVehicle (p : Passenger) (v : Vehicle) :
      ReachableProto mgr astar v → ReachableProto mgr astar (mgr.PassengerIntoVehicle v p)
  | dropOff (rand : Coordinate) (v : Vehicle) :
      ReachableProto mgr astar v → ReachableProto mgr astar (mgr.DropOffPassenger rand v)

/-- The `BasicGraphics` bounds (src/unnamed/part_000 lines 9-14). -/
structure BasicGraphics where
  min_lat : ℝ
  min_lon : ℝ
  max_lat : ℝ
  max_lon : ℝ

/-- The longitude adjustment of `DrawIntersections` / `DrawPassengers`
(src/unnamed/part_000 lines 63 and 88/90):
`position[0] = (position[0] - min_lon_) / (max_lon_ - min_lon_)`. -/
noncomputable def BasicGraphics.adjustX (g : BasicGraphics) (lon : ℝ) : ℝ :=
  (lon - g.min_lon) / (g.max_lon - g.min_lon)

/-- The latitude adjustment of `DrawIntersections` / `DrawPassengers`
(src/unnamed/part_000 lines 64 and 89/91):
`position[1] = (max_lat_ - position[1]) / (max_lat_ - min_lat_)`. -/
noncomputable def BasicGraphics.adjustY (g : BasicGraphics) (lat : ℝ) : ℝ :=
  (g.max_lat - lat) / (g.max_lat - g.min_lat)

/-- The horizontal pixel coordinate handed to `cv::circle`
(src/unnamed/part_000 lines 68 and 96/97): the adjusted fraction scaled by
the image column count (the drawn point truncates this real to `int`). -/
noncomputable def BasicGraphics.pixelX (g : BasicGraphics) (lon img_cols : ℝ) : ℝ :=
  g.adjustX lon * img_cols

/-- The vertical pixel coordinate handed to `cv::circle`
(src/unnamed/part_000 lines 68 and 96/97): the adjusted fraction scaled by
the image row count. -/
noncomputable def BasicGraphics.pixelY (g : BasicGraphics) (lat img_rows : ℝ) : ℝ :=
  g.adjustY lat * img_rows

/-- The spec's coordinate-to-pixel formula (§6), written from the spec's
words for comparison with the source's `pixelX`:
`px = (lon − min_lon) / (max_lon − min_lon) · width`. -/
noncomputable def specPixelX (g : BasicGraphics) (lon width : ℝ) : ℝ :=
  (lon - g.min_lon) / (g.max_lon - g.min_lon) * width

/-- The spec's coordinate-to-pixel formula (§6), written from the spec's
words for comparison with the source's `pixelY`:
`py = (max_lat − lat) / (max_lat − min_lat) · height`. -/
noncomputable def specPixelY (g : BasicGraphics) (lat height : ℝ) : ℝ :=
  (g.max_lat - lat) / (g.max_lat - g.min_lat) * height

/-! Section: State predicates used by the invariant claims -/

/-- The spec's invariant §8.1: a passenger is aboard exactly in state
`driving_passenger`. -/
def PassengerStateInv (v : Vehicle) : Prop :=
  v.passenger.isSome ↔ v.state = VehicleState.driving_passenger

/-- The inductive path invariant behind the in-bounds safety of
`IncrementalMove`: either the path is empty (and will be re-routed), or
its last node is the destination and the index is in range — the index
may equal the length only while the vehicle waits at the pickup, where the
drive loop skips the move. -/
def PathInv (v : Vehicle) : Prop :=
  v.path = [] ∨
    (v.path.getLast? = some v.destination ∧
      (v.pathIndex < v.path.length ∨
        (v.pathIndex = v.path.length ∧ v.state = VehicleState.waiting)))

/-- The route-planner contract, modelled from the spec §4.B: a returned
non-empty path includes the goal as its last node, and the goal is the
node snapped from the vehicle's destination, which the manager always
keeps node-aligned — so the last path node is the destination itself. -/
def AStarContract (astar : Vehicle → List Coordinate) : Prop :=
  ∀ v, astar v ≠ [] → (astar v).getLast? = some v.destination

/-! Section: Concrete fixtures for witnesses and counterexamples -/

/-- A one-node route model on the unit-degree map: the only road node sits
at the origin, so every coordinate snaps to `⟨0, 0⟩`. -/
noncomputable def modelOne : RouteModel :=
  { nodes := [⟨0, 0⟩], MinLat := 0, MaxLat := 1, MinLon := 0, MaxLon := 1 }

/-- The vehicle manager built on `modelOne`; its step size is
`|1 − 0| / 1000`. -/
noncomputable def mgrOne : VehicleManager := VehicleManager.ofModel modelOne

/-- A freshly generated vehicle on `modelOne`: position and destination
both at the origin node, empty path, no passenger. -/
noncomputable def vehicleIdle : Vehicle := mgrOne.GenerateNew ⟨0, 0⟩ ⟨0, 0⟩ 0

/-- The vehicle `vehicleIdle` with the one-node path `[⟨0, 0⟩]`. -/
noncomputable def vehicleOnPath : Vehicle := { vehicleIdle with path := [⟨0, 0⟩] }

/-- A passenger heading from the origin to `⟨1, 1⟩`. -/
def passengerOne : Passenger :=
  { id := 7, start := ⟨0, 0⟩, destination := ⟨1, 1⟩, position := ⟨0, 0⟩ }

/-- The vehicle `vehicleIdle` after `PassengerIntoVehicle passengerOne`: it carries the
passenger, drives, and its destination is the node snapped from the
passenger's destination. -/
noncomputable def vehicleDriving : Vehicle :=
  mgrOne.PassengerIntoVehicle vehicleIdle passengerOne

/-- The vehicle `vehicleDriving` with two recorded match failures. -/
noncomputable def vehicleFail2 : Vehicle := { vehicleDriving with failures := 2 }

/-- A route planner that never finds a route. -/
def astarEmpty : Vehicle → List Coordinate := fun _ => []

end Rideshare

namespace Rideshare

/-! Section: Claim C9 — the coordinate-to-pixel mapping -/

/-- Claim C9. For every coordinate drawn and every image of width `width`
and height `height`, the coordinate-to-pixel mapping is
`px = (lon − min_lon) / (max_lon − min_lon) · width` and
`py = (max_lat − lat) / (max_lat − min_lat) · height`: the mapping
computed by `DrawIntersections` and `DrawPassengers` coincides with the
spec's formula. -/
theorem C9_pixel_mapping (g : BasicGraphics) (lon lat width height : ℝ) :
    g.pixelX lon width = specPixelX g lon width ∧
    g.pixelY lat height = specPixelY g lat height := by
  constructor <;> rfl

/-! Section: Claim C5 — `AssignPassenger` -/

/-- Claim C5, counterexample. The claim says `assign_passenger` sets the
vehicle's destination to the pickup coordinate; on the one-node map the
pickup `⟨1, 1⟩` is snapped to the origin node, so the destination is not
the pickup coordinate. -/
theorem C5_counterexample :
    (mgrOne.AssignPassenger vehicleIdle ⟨1, 1⟩).destination ≠ (⟨1, 1⟩ : Coordinate) := by
  intro h
  have hx : (0 : ℝ) = 1 := congrArg Coordinate.x h
  exact zero_ne_one hx

/-- Claim C5, amended. `assign_passenger(vehicle_id, pickup)` sets the
vehicle's destination to the nearest road node to the pickup coordinate
(the pickup itself whenever the pickup is a node position), resets the
path to empty and the path index to 0, sets the state to
`PassengerQueued`, and leaves the position unchanged. -/
theorem C5_assign_passenger (mgr : VehicleManager) (v : Vehicle) (position : Coordinate) :
    (mgr.AssignPassenger v position).destination = mgr.model.FindClosestNode position ∧
    (mgr.AssignPassenger v position).path = [] ∧
    (mgr.AssignPassenger v position).pathIndex = 0 ∧
    (mgr.AssignPassenger v position).state = VehicleState.passenger_queued ∧
    (mgr.AssignPassenger v position).position = v.position :=
  ⟨rfl, rfl, rfl, rfl, rfl⟩

/-! Section: Claim C6 — `PassengerIntoVehicle` -/

/-- Claim C6, counterexample. The claim says `passenger_into_vehicle` sets
the vehicle's destination to the passenger's destination; on the one-node
map the passenger's destination `⟨1, 1⟩` is snapped to the origin node, so
the vehicle's destination differs from the passenger's. -/
theorem C6_counterexample :
    (mgrOne.PassengerIntoVehicle vehicleIdle passengerOne).destination ≠
      passengerOne.destination := by
  intro h
  have hx : (0 : ℝ) = 1 := congrArg Coordinate.x h
  exact zero_ne_one hx

/-- Claim C6, amended. `passenger_into_vehicle(vehicle_id, passenger)`
attaches the passenger to the vehicle, sets the vehicle's destination to
the nearest road node to the passenger's destination (the destination
itself whenever it is a node position), resets the path to empty and the
path index to 0, and sets the state to `DrivingPassenger`. -/
theorem C6_passenger_into_vehicle (mgr : VehicleManager) (v : Vehicle) (p : Passenger) :
    (mgr.PassengerIntoVehicle v p).passenger = some p ∧
    (mgr.PassengerIntoVehicle v p).destination = mgr.model.FindClosestNode p.destination ∧
    (mgr.PassengerIntoVehicle v p).path = [] ∧
    (mgr.PassengerIntoVehicle v p).pathIndex = 0 ∧
    (mgr.PassengerIntoVehicle v p).state = VehicleState.driving_passenger :=
  ⟨rfl, rfl, rfl, rfl, rfl⟩

/-! Section: Claim C2 — drop-off -/

/-- Claim C2. For every vehicle in state `DrivingPassenger` whose position
equals its destination (the arrival test), `DropOffPassenger` clears the
carried passenger, resets the failure counter to 0, re-targets the
vehicle at the node snapped from a fresh random draw, and sets the state
to `NoPassengerRequested`. -/
theorem C2_drop_off (mgr : VehicleManager) (rand : Coordinate) (v : Vehicle)
    (h₁ : v.state = VehicleState.driving_passenger)
    (h₂ : v.position = v.destination) :
    (mgr.DropOffPassenger rand v).passenger = none ∧
    (mgr.DropOffPassenger rand v).failures = 0 ∧
    (mgr.DropOffPassenger rand v).destination = mgr.model.FindClosestNode rand ∧
    (mgr.DropOffPassenger rand v).state = VehicleState.no_passenger_requested :=
  ⟨rfl, rfl, rfl, rfl⟩

/-- Claim C2, witness. A vehicle with `failures = 2` that drops off ends
with `failures = 0` and state `NoPassengerRequested`. -/
theorem C2_drop_off_witness :
    vehicleFail2.state = VehicleState.driving_passenger ∧
    vehicleFail2.position = vehicleFail2.destination ∧
    vehicleFail2.failures = 2 ∧
    ((mgrOne.DropOffPassenger ⟨0, 0⟩ vehicleFail2).passenger = none ∧
     (mgrOne.DropOffPassenger ⟨0, 0⟩ vehicleFail2).failures = 0 ∧
     (mgrOne.DropOffPassenger ⟨0, 0⟩ vehicleFail2).destination =
       mgrOne.model.FindClosestNode ⟨0, 0⟩ ∧
     (mgrOne.DropOffPassenger ⟨0, 0⟩ vehicleFail2).state =
       VehicleState.no_passenger_requested) :=
  ⟨rfl, rfl, rfl, C2_drop_off mgrOne ⟨0, 0⟩ vehicleFail2 rfl rfl⟩

/-! Section: Claim C8 — `SetPosition` carries the passenger along -/

/-- Claim C8. Whenever a vehicle's position is set while it carries a
passenger, the carried passenger's position is updated by value to the
vehicle's new position, so afterwards the passenger's position equals the
vehicle's position. -/
theorem C8_set_position (v : Vehicle) (c : Coordinate) (p : Passenger)
    (h : v.passenger = some p) :
    (v.SetPosition c).position = c ∧
    (v.SetPosition c).passenger = some (p.SetPosition c) ∧
    Option.map Passenger.position (v.SetPosition c).passenger =
      some (v.SetPosition c).position := by
  refine ⟨rfl, ?_, ?_⟩ <;>
    simp [Vehicle.SetPosition, Passenger.SetPosition, h]

/-- Claim C8, witness. The carrying vehicle `vehicleDriving` moved to
`⟨2, 3⟩` carries its passenger to `⟨2, 3⟩` as well. -/
theorem C8_set_position_witness :
    vehicleDriving.passenger = some passengerOne ∧
    ((vehicleDriving.SetPosition ⟨2, 3⟩).position = (⟨2, 3⟩ : Coordinate) ∧
     (vehicleDriving.SetPosition ⟨2, 3⟩).passenger =
       some (passengerOne.SetPosition ⟨2, 3⟩) ∧
     Option.map Passenger.position (vehicleDriving.SetPosition ⟨2, 3⟩).passenger =
       some (vehicleDriving.SetPosition ⟨2, 3⟩).position) :=
  ⟨rfl, C8_set_position vehicleDriving ⟨2, 3⟩ passengerOne rfl⟩

/-! Section: Claim C1 — one incremental-move step -/

/-- Claim C1. For every vehicle with a non-empty path and `path_index` in
range (equivalently: `path.get? path_index = some next_pos`), one
incremental-move step either snaps — when the Euclidean distance `d` to
`next_pos` satisfies `d ≤ distance_per_cycle`, the position becomes
exactly `next_pos` and the path index grows by one — or, otherwise,
advances the position by exactly `distance_per_cycle` along the angle
`atan2 (next_pos.y − pos.y) (next_pos.x − pos.x)` with the path index
unchanged. -/
theorem C1_incremental_move (mgr : VehicleManager) (v : Vehicle) (next_pos : Coordinate)
    (h : v.path.get? v.pathIndex = some next_pos) :
    ∃ w, mgr.IncrementalMove v = some w ∧
      (euclid v.position next_pos ≤ mgr.distance_per_cycle →
        w.position = next_pos ∧ w.pathIndex = v.pathIndex + 1) ∧
      (¬ euclid v.position next_pos ≤ mgr.distance_per_cycle →
        w.position =
          ⟨v.position.x + mgr.distance_per_cycle *
              Real.cos (atan2 (next_pos.y - v.position.y) (next_pos.x - v.position.x)),
            v.position.y + mgr.distance_per_cycle *
              Real.sin (atan2 (next_pos.y - v.position.y) (next_pos.x - v.position.x))⟩ ∧
        w.pathIndex = v.pathIndex) := by
  unfold VehicleManager.IncrementalMove
  rw [h]
  dsimp only
  by_cases hd : euclid v.position next_pos ≤ mgr.distance_per_cycle
  · exact ⟨(v.SetPosition ⟨next_pos.x, next_pos.y⟩).IncrementPathIndex,
      by rw [if_pos hd], fun _ => ⟨rfl, rfl⟩, fun hc => absurd hd hc⟩
  · exact ⟨v.SetPosition
        ⟨v.position.x + mgr.distance_per_cycle *
            Real.cos (atan2 (next_pos.y - v.position.y) (next_pos.x - v.position.x)),
          v.position.y + mgr.distance_per_cycle *
            Real.sin (atan2 (next_pos.y - v.position.y) (next_pos.x - v.position.x))⟩,
      by rw [if_neg hd], fun hc => absurd hc hd, fun _ => ⟨rfl, rfl⟩⟩

/-- Claim C1, witness. On `vehicleOnPath` (position at the origin, path
`[⟨0, 0⟩]`, index 0) the hypothesis holds and the step behaves as
claimed. -/
theorem C1_incremental_move_witness :
    vehicleOnPath.path.get? vehicleOnPath.pathIndex = some (⟨0, 0⟩ : Coordinate) ∧
    ∃ w, mgrOne.IncrementalMove vehicleOnPath = some w ∧
      (euclid vehicleOnPath.position ⟨0, 0⟩ ≤ mgrOne.distance_per_cycle →
        w.position = (⟨0, 0⟩ : Coordinate) ∧ w.pathIndex = vehicleOnPath.pathIndex + 1) ∧
      (¬ euclid vehicleOnPath.position ⟨0, 0⟩ ≤ mgrOne.distance_per_cycle →
        w.position =
          ⟨vehicleOnPath.position.x + mgrOne.distance_per_cycle *
              Real.cos (atan2 (0 - vehicleOnPath.position.y) (0 - vehicleOnPath.position.x)),
            vehicleOnPath.position.y + mgrOne.distance_per_cycle *
              Real.sin (atan2 (0 - vehicleOnPath.position.y) (0 - vehicleOnPath.position.x))⟩ ∧
        w.pathIndex = vehicleOnPath.pathIndex) :=
  ⟨rfl, C1_incremental_move mgrOne vehicleOnPath ⟨0, 0⟩ rfl⟩

/-! Section: Claim C7 — per-tick distance bound -/

/-- On a manager built by the constructor, the step size is nonnegative. -/
theorem distance_per_cycle_nonneg (m : RouteModel) :
    0 ≤ (VehicleManager.ofModel m).distance_per_cycle :=
  div_nonneg (abs_nonneg _) (by norm_num)

/-- Claim C7. For every vehicle and every incremental move of a manager
whose step size was fixed at construction to `|MaxLat − MinLat| / 1000`,
the Euclidean distance between the positions before and after the move is
at most `distance_per_cycle`. -/
theorem C7_move_bounded (m : RouteModel) (v : Vehicle) (next_pos : Coordinate) (w : Vehicle)
    (h : v.path.get? v.pathIndex = some next_pos)
    (hw : (VehicleManager.ofModel m).IncrementalMove v = some w) :
    euclid v.position w.position ≤ (VehicleManager.ofModel m).distance_per_cycle := by
  have hs : 0 ≤ (VehicleManager.ofModel m).distance_per_cycle :=
    distance_per_cycle_nonneg m
  unfold VehicleManager.IncrementalMove at hw
  rw [h] at hw
  dsimp only at hw
  by_cases hd : euclid v.position next_pos ≤ (VehicleManager.ofModel m).distance_per_cycle
  · rw [if_pos hd] at hw
    have hwpos : w.position = next_pos := by
      cases hw
      rfl
    rw [hwpos]
    exact hd
  · rw [if_neg hd] at hw
    set s := (VehicleManager.ofModel m).distance_per_cycle with hsdef
    set θ := atan2 (next_pos.y - v.position.y) (next_pos.x - v.position.x) with hθ
    have hwpos : w.position =
        ⟨v.position.x + s * Real.cos θ, v.position.y + s * Real.sin θ⟩ := by
      cases hw
      rfl
    rw [hwpos]
    have htrig : Real.cos θ ^ 2 + Real.sin θ ^ 2 = 1 := Real.cos_sq_add_sin_sq θ
    have hsum : (v.position.x + s * Real.cos θ - v.position.x) ^ 2 +
        (v.position.y + s * Real.sin θ - v.position.y) ^ 2 = s ^ 2 := by
      nlinarith [htrig]
    unfold euclid
    rw [hsum, Real.sqrt_sq hs]

/-- Claim C7, witness. On `vehicleOnPath` the move succeeds (it snaps onto
the origin node) and the moved distance is within the step. -/
theorem C7_move_bounded_witness :
    vehicleOnPath.path.get? vehicleOnPath.pathIndex = some (⟨0, 0⟩ : Coordinate) ∧
    (VehicleManager.ofModel modelOne).IncrementalMove vehicleOnPath =
      some ((vehicleOnPath.SetPosition ⟨0, 0⟩).IncrementPathIndex) ∧
    euclid vehicleOnPath.position
        ((vehicleOnPath.SetPosition ⟨0, 0⟩).IncrementPathIndex).position ≤
      (VehicleManager.ofModel modelOne).distance_per_cycle := by
  have hd : euclid vehicleOnPath.position (⟨0, 0⟩ : Coordinate) ≤
      (VehicleManager.ofModel modelOne).distance_per_cycle := by
    have h0 : euclid vehicleOnPath.position (⟨0, 0⟩ : Coordinate) = 0 := by
      show Real.sqrt (((0 : ℝ) - 0) ^ 2 + ((0 : ℝ) - 0) ^ 2) = 0
      norm_num
    rw [h0]
    exact distance_per_cycle_nonneg modelOne
  have hw : (VehicleManager.ofModel modelOne).IncrementalMove vehicleOnPath =
      some ((vehicleOnPath.SetPosition ⟨0, 0⟩).IncrementPathIndex) := by
    unfold VehicleManager.IncrementalMove
    rw [show vehicleOnPath.path.get? vehicleOnPath.pathIndex = some (⟨0, 0⟩ : Coordinate)
      from rfl]
    exact if_pos hd
  exact ⟨rfl, hw, C7_move_bounded modelOne vehicleOnPath ⟨0, 0⟩ _ rfl hw⟩

/-! Section: Claim C4 — recovery from an empty route -/

/-- Claim C4, counterexample. The claim says that when the route planner
returns an empty path for a vehicle already carrying a passenger, the
matcher is informed, the state is reset to `NoPassengerRequested`, and the
passenger is re-queued.  On `vehicleDriving` (which carries
`passengerOne`) with a planner that finds no route, the drive iteration
instead randomises the destination exactly as in the passenger-free case:
it sends no matcher message, keeps the state `DrivingPassenger`, and keeps
the passenger aboard. -/
theorem C4_counterexample :
    mgrOne.DriveTick astarEmpty ⟨0, 0⟩ vehicleDriving =
      some (mgrOne.ResetVehicleDestination ⟨0, 0⟩
        { vehicleDriving with path := astarEmpty vehicleDriving, pathIndex := 0 } true, []) ∧
    (mgrOne.ResetVehicleDestination ⟨0, 0⟩
        { vehicleDriving with path := astarEmpty vehicleDriving, pathIndex := 0 } true).state =
      VehicleState.driving_passenger ∧
    (mgrOne.ResetVehicleDestination ⟨0, 0⟩
        { vehicleDriving with path := astarEmpty vehicleDriving, pathIndex := 0 } true).passenger =
      some passengerOne :=
  ⟨rfl, rfl, rfl⟩

/-- Claim C4, amended. Whenever the route planner returns an empty path for
a vehicle, the error is recovered locally by randomising that vehicle's
destination (snapped to the nearest node) — unconditionally, also when the
vehicle already carries a passenger: no matcher message is sent, and the
vehicle's state and passenger are left unchanged (the passenger-carrying
case is an acknowledged `TODO` in the source, not implemented). -/
theorem C4_unroutable_recovery (mgr : VehicleManager) (astar : Vehicle → List Coordinate)
    (rand : Coordinate) (v : Vehicle)
    (h₁ : v.path = []) (h₂ : astar v = []) :
    mgr.DriveTick astar rand v =
      some (mgr.ResetVehicleDestination rand
        { v with path := astar v, pathIndex := 0 } true, []) ∧
    (mgr.ResetVehicleDestination rand
        { v with path := astar v, pathIndex := 0 } true).state = v.state ∧
    (mgr.ResetVehicleDestination rand
        { v with path := astar v, pathIndex := 0 } true).passenger = v.passenger ∧
    (mgr.ResetVehicleDestination rand
        { v with path := astar v, pathIndex := 0 } true).destination =
      mgr.model.FindClosestNode rand := by
  refine ⟨?_, rfl, rfl, rfl⟩
  unfold VehicleManager.DriveTick
  rw [h₁]
  dsimp only
  rw [h₂]
  rfl

/-- Claim C4, witness. The amended behaviour on the concrete carrying
vehicle `vehicleDriving` with the always-failing planner. -/
theorem C4_unroutable_recovery_witness :
    vehicleDriving.path = [] ∧
    astarEmpty vehicleDriving = [] ∧
    (mgrOne.DriveTick astarEmpty ⟨0, 0⟩ vehicleDriving =
      some (mgrOne.ResetVehicleDestination ⟨0, 0⟩
        { vehicleDriving with path := astarEmpty vehicleDriving, pathIndex := 0 } true, []) ∧
    (mgrOne.ResetVehicleDestination ⟨0, 0⟩
        { vehicleDriving with path := astarEmpty vehicleDriving, pathIndex := 0 } true).state =
      vehicleDriving.state ∧
    (mgrOne.ResetVehicleDestination ⟨0, 0⟩
        { vehicleDriving with path := astarEmpty vehicleDriving, pathIndex := 0 } true).passenger =
      vehicleDriving.passenger ∧
    (mgrOne.ResetVehicleDestination ⟨0, 0⟩
        { vehicleDriving with path := astarEmpty vehicleDriving, pathIndex := 0 } true).destination =
      mgrOne.model.FindClosestNode ⟨0, 0⟩) :=
  ⟨rfl, rfl, C4_unroutable_recovery mgrOne astarEmpty ⟨0, 0⟩ vehicleDriving rfl rfl⟩

/-! Section: Claim C3 — the passenger/state invariant -/

/-- A vehicle satisfying the invariant in a non-driving state carries no
passenger. -/
theorem passenger_none_of_inv {v : Vehicle} (hv : PassengerStateInv v)
    (hs : v.state ≠ VehicleState.driving_passenger) : v.passenger = none := by
  cases h : v.passenger with
  | none => rfl
  | some p => exact absurd (hv.mp (by rw [h]; rfl)) hs

/-- The move `IncrementalMove` changes neither whether a passenger is aboard nor
the vehicle state. -/
theorem IncrementalMove_passenger_state (mgr : VehicleManager) (v w : Vehicle)
    (hw : mgr.IncrementalMove v = some w) :
    w.passenger.isSome = v.passenger.isSome ∧ w.state = v.state := by
  unfold VehicleManager.IncrementalMove at hw
  cases hget : v.path.get? v.pathIndex with
  | none => rw [hget] at hw; exact absurd hw (by simp)
  | some next_pos =>
    rw [hget] at hw
    dsimp only at hw
    by_cases hd : euclid v.position next_pos ≤ mgr.distance_per_cycle
    · rw [if_pos hd] at hw
      cases hw
      exact ⟨by simp [Vehicle.IncrementPathIndex, Vehicle.SetPosition], rfl⟩
    · rw [if_neg hd] at hw
      cases hw
      exact ⟨by simp [Vehicle.SetPosition], rfl⟩

/-- The drive-iteration body preserves the passenger/state invariant. -/
theorem PassengerStateInv_DriveTickBody (mgr : VehicleManager) (rand : Coordinate)
    (v w : Vehicle) (msgs : List MatcherMsg)
    (hv : PassengerStateInv v)
    (hw : mgr.DriveTickBody rand v = some (w, msgs)) : PassengerStateInv w := by
  unfold VehicleManager.DriveTickBody at hw
  by_cases hreq : v.state = VehicleState.no_passenger_requested
  case pos =>
    rw [if_pos hreq] at hw
    dsimp only [VehicleManager.RequestPassenger] at hw
    have hnone : v.passenger = none :=
      passenger_none_of_inv hv (by rw [hreq]; intro hc; cases hc)
    rw [if_neg (by intro hc; cases hc)] at hw
    cases hmove : mgr.IncrementalMove { v with state := VehicleState.no_passenger_queued } with
    | none => rw [hmove] at hw; exact absurd hw (by simp)
    | some v₃ =>
      rw [hmove] at hw
      dsimp only at hw
      obtain ⟨hps, hst⟩ := IncrementalMove_passenger_state _ _ _ hmove
      have hps3 : v₃.passenger = none := by
        rw [← Option.not_isSome_iff_eq_none, hps]
        simp [hnone]
      have hst3 : v₃.state = VehicleState.no_passenger_queued := hst
      by_cases harr : v₃.position = v₃.destination
      · rw [if_pos harr, if_pos hst3] at hw
        cases hw
        unfold PassengerStateInv
        rw [show (mgr.ResetVehicleDestination rand v₃ true).passenger = v₃.passenger from rfl,
          hps3, show (mgr.ResetVehicleDestination rand v₃ true).state = v₃.state from rfl, hst3]
        simp
      · rw [if_neg harr] at hw
        cases hw
        unfold PassengerStateInv
        rw [hps3, hst3]
        simp
  case neg =>
    rw [if_neg hreq] at hw
    dsimp only at hw
    by_cases hwait : v.state = VehicleState.waiting
    · rw [if_pos hwait] at hw
      cases hw
      exact hv
    · rw [if_neg hwait] at hw
      cases hmove : mgr.IncrementalMove v with
      | none => rw [hmove] at hw; exact absurd hw (by simp)
      | some v₃ =>
        rw [hmove] at hw
        dsimp only at hw
        obtain ⟨hps, hst⟩ := IncrementalMove_passenger_state _ _ _ hmove
        have hv3 : PassengerStateInv v₃ := by
          unfold PassengerStateInv
          rw [hps, hst]
          exact hv
        by_cases harr : v₃.position = v₃.destination
        · rw [if_pos harr] at hw
          by_cases h1 : v₃.state = VehicleState.no_passenger_queued
          · rw [if_pos h1] at hw
            cases hw
            exact hv3
          · rw [if_neg h1] at hw
            by_cases h2 : v₃.state = VehicleState.passenger_queued
            · rw [if_pos h2] at hw
              dsimp only [VehicleManager.ArrivedAtPassenger] at hw
              cases hw
              have hps3 : v₃.passenger = none :=
                passenger_none_of_inv hv3 (by rw [h2]; intro hc; cases hc)
              unfold PassengerStateInv
              rw [show ({ v₃ with state := VehicleState.waiting } : Vehicle).passenger =
                v₃.passenger from rfl, hps3]
              simp
            · rw [if_neg h2] at hw
              by_cases h3 : v₃.state = VehicleState.driving_passenger
              · rw [if_pos h3] at hw
                cases hw
                unfold PassengerStateInv
                rw [show (mgr.DropOffPassenger rand v₃).passenger = none from rfl,
                  show (mgr.DropOffPassenger rand v₃).state =
                    VehicleState.no_passenger_requested from rfl]
                simp
              · rw [if_neg h3] at hw
                cases hw
                exact hv3
        · rw [if_neg harr] at hw
          cases hw
          exact hv3

/-- The full drive iteration preserves the passenger/state invariant. -/
theorem PassengerStateInv_DriveTick (mgr : VehicleManager)
    (astar : Vehicle → List Coordinate) (rand : Coordinate)
    (v w : Vehicle) (msgs : List MatcherMsg)
    (hv : PassengerStateInv v)
    (hw : mgr.DriveTick astar rand v = some (w, msgs)) : PassengerStateInv w := by
  unfold VehicleManager.DriveTick at hw
  by_cases hp : v.path.isEmpty = true
  · rw [if_pos hp] at hw
    dsimp only at hw
    by_cases ha : (astar v).isEmpty = true
    · rw [if_pos ha] at hw
      cases hw
      exact hv
    · rw [if_neg ha] at hw
      refine PassengerStateInv_DriveTickBody mgr rand _ w msgs ?_ hw
      unfold PassengerStateInv
      exact hv
  · rw [if_neg hp] at hw
    exact PassengerStateInv_DriveTickBody mgr rand v w msgs hv hw

/-- Claim C3, counterexample. The claim quantifies over every state
reachable by the vehicle manager's operations; but `AssignPassenger`
invoked on a vehicle that carries a passenger (reachable:
generate → `PassengerIntoVehicle` → `AssignPassenger`) leaves
`DrivingPassenger` without clearing the passenger, so the reached state
has a passenger aboard while in state `PassengerQueued`. -/
theorem C3_counterexample :
    Reachable mgrOne astarEmpty (mgrOne.AssignPassenger vehicleDriving ⟨1, 1⟩) ∧
    ¬ PassengerStateInv (mgrOne.AssignPassenger vehicleDriving ⟨1, 1⟩) := by
  constructor
  · exact Reachable.assign ⟨1, 1⟩ vehicleDriving
      (Reachable.intoVehicle passengerOne vehicleIdle (Reachable.init ⟨0, 0⟩ ⟨0, 0⟩ 0))
  · intro hinv
    unfold PassengerStateInv at hinv
    rw [show (mgrOne.AssignPassenger vehicleDriving ⟨1, 1⟩).passenger = some passengerOne
        from rfl,
      show (mgrOne.AssignPassenger vehicleDriving ⟨1, 1⟩).state =
        VehicleState.passenger_queued from rfl] at hinv
    simp at hinv

/-- Claim C3, amended. For every vehicle state reachable by the vehicle
manager's operations, with `assign_passenger` invoked only on a vehicle
that does not currently carry a passenger (which the matcher protocol
guarantees: only vehicles in the matcher's open queue are assigned), the
invariant `passenger.is_some() ⇔ state = DrivingPassenger` holds between
operations: `PassengerIntoVehicle` attaches the passenger and enters
`DrivingPassenger` atomically, and `DropOffPassenger` clears the passenger
and leaves `DrivingPassenger` atomically. -/
theorem C3_passenger_state_invariant (mgr : VehicleManager)
    (astar : Vehicle → List Coordinate) (v : Vehicle)
    (h : ReachableProto mgr astar v) : PassengerStateInv v := by
  induction h with
  | init start destination id =>
    unfold PassengerStateInv VehicleManager.GenerateNew
    simp
  | tick rand v w msgs hr hw ih =>
    exact PassengerStateInv_DriveTick mgr astar rand v w msgs ih hw
  | assign position v hr hnone ih =>
    unfold PassengerStateInv
    rw [show (mgr.AssignPassenger v position).passenger = v.passenger from rfl, hnone,
      show (mgr.AssignPassenger v position).state = VehicleState.passenger_queued from rfl]
    simp
  | intoVehicle p v hr ih =>
    unfold PassengerStateInv
    rw [show (mgr.PassengerIntoVehicle v p).passenger = some p from rfl,
      show (mgr.PassengerIntoVehicle v p).state = VehicleState.driving_passenger from rfl]
    simp
  | dropOff rand v hr ih =>
    unfold PassengerStateInv
    rw [show (mgr.DropOffPassenger rand v).passenger = none from rfl,
      show (mgr.DropOffPassenger rand v).state = VehicleState.no_passenger_requested from rfl]
    simp

/-- Claim C3, witness. The protocol-reachable carrying vehicle
`vehicleDriving` satisfies the invariant. -/
theorem C3_passenger_state_invariant_witness :
    ReachableProto mgrOne astarEmpty vehicleDriving ∧ PassengerStateInv vehicleDriving :=
  ⟨ReachableProto.intoVehicle passengerOne vehicleIdle (ReachableProto.init ⟨0, 0⟩ ⟨0, 0⟩ 0),
   C3_passenger_state_invariant mgrOne astarEmpty vehicleDriving
     (ReachableProto.intoVehicle passengerOne vehicleIdle (ReachableProto.init ⟨0, 0⟩ ⟨0, 0⟩ 0))⟩

/-! Section: Claim C10 — `path.at(path_index)` is always in bounds -/

/-- The move `IncrementalMove` keeps path, destination and state, and either keeps
the index (intermediate step) or advances it by one having snapped the
position onto the indexed node. -/
theorem IncrementalMove_path_fields (mgr : VehicleManager) (v w : Vehicle)
    (hw : mgr.IncrementalMove v = some w) :
    w.path = v.path ∧ w.destination = v.destination ∧ w.state = v.state ∧
      (w.pathIndex = v.pathIndex ∨
        (w.pathIndex = v.pathIndex + 1 ∧ v.path.get? v.pathIndex = some w.position)) := by
  unfold VehicleManager.IncrementalMove at hw
  cases hget : v.path.get? v.pathIndex with
  | none => rw [hget] at hw; exact absurd hw (by simp)
  | some next_pos =>
    rw [hget] at hw
    dsimp only at hw
    by_cases hd : euclid v.position next_pos ≤ mgr.distance_per_cycle
    · rw [if_pos hd] at hw
      cases hw
      exact ⟨rfl, rfl, rfl, Or.inr ⟨rfl, rfl⟩⟩
    · rw [if_neg hd] at hw
      cases hw
      exact ⟨rfl, rfl, rfl, Or.inl rfl⟩

/-- With the index in range, `IncrementalMove` returns a vehicle (the
`path.at` access does not escape). -/
theorem IncrementalMove_isSome (mgr : VehicleManager) (v : Vehicle)
    (h : v.pathIndex < v.path.length) : ∃ w, mgr.IncrementalMove v = some w := by
  unfold VehicleManager.IncrementalMove
  rw [List.get?_eq_get h]
  dsimp only
  by_cases hd : euclid v.position (v.path.get ⟨v.pathIndex, h⟩) ≤ mgr.distance_per_cycle
  · exact ⟨_, by rw [if_pos hd]⟩
  · exact ⟨_, by rw [if_neg hd]⟩

/-- The last entry of the path through `get?`. -/
theorem get?_length_sub_one_eq_getLast? {α : Type} (l : List α) :
    l.get? (l.length - 1) = l.getLast? := by
  rw [List.get?_eq_getElem?, List.getLast?_eq_getElem?]

/-- After a successful move from a state whose index is in range and whose
path ends at the destination, the index is back in range or the position
has landed exactly on the destination. -/
theorem IncrementalMove_progress (mgr : VehicleManager) (v w : Vehicle)
    (hlast : v.path.getLast? = some v.destination)
    (hidx : v.pathIndex < v.path.length)
    (hw : mgr.IncrementalMove v = some w) :
    w.path = v.path ∧ w.destination = v.destination ∧ w.state = v.state ∧
      (w.pathIndex < w.path.length ∨
        (w.pathIndex = w.path.length ∧ w.position = w.destination)) := by
  obtain ⟨hp, hd, hs, hcase⟩ := IncrementalMove_path_fields mgr v w hw
  refine ⟨hp, hd, hs, ?_⟩
  rcases hcase with hsame | ⟨hsucc, hpos⟩
  · exact Or.inl (by rw [hsame, hp]; exact hidx)
  · by_cases hend : v.pathIndex + 1 < v.path.length
    · exact Or.inl (by rw [hsucc, hp]; exact hend)
    · have hlen : v.pathIndex + 1 = v.path.length := by omega
      have hidx_eq : v.pathIndex = v.path.length - 1 := by omega
      have : v.path.get? v.pathIndex = some v.destination := by
        rw [hidx_eq, get?_length_sub_one_eq_getLast?, hlast]
      rw [this] at hpos
      refine Or.inr ⟨by rw [hsucc, hp]; exact hlen, ?_⟩
      rw [hd]
      exact (Option.some.injEq _ _ ▸ hpos).symm ▸ rfl

/-- The drive-iteration body neither escapes nor breaks the path
invariant, provided the path is non-empty, ends at the destination, and
the index is in range (or the vehicle is waiting with a consumed path). -/
theorem DriveTickBody_safe_inv (mgr : VehicleManager) (rand : Coordinate) (v : Vehicle)
    (hlast : v.path.getLast? = some v.destination)
    (hidx : v.pathIndex < v.path.length ∨
      (v.pathIndex = v.path.length ∧ v.state = VehicleState.waiting)) :
    ∃ w msgs, mgr.DriveTickBody rand v = some (w, msgs) ∧ PathInv w := by
  unfold VehicleManager.DriveTickBody
  by_cases hreq : v.state = VehicleState.no_passenger_requested
  · -- the request converts the state to `no_passenger_queued`; the move runs
    rw [if_pos hreq]
    dsimp only [VehicleManager.RequestPassenger]
    rw [if_neg (by intro hc; cases hc)]
    have hidx' : v.pathIndex < v.path.length := by
      rcases hidx with h | ⟨_, hwait⟩
      · exact h
      · rw [hreq] at hwait; cases hwait
    obtain ⟨v₃, hmove⟩ := IncrementalMove_isSome mgr
      { v with state := VehicleState.no_passenger_queued } hidx'
    rw [hmove]
    dsimp only
    have hlast' :
        ({ v with state := VehicleState.no_passenger_queued } : Vehicle).path.getLast? =
          some ({ v with state := VehicleState.no_passenger_queued } : Vehicle).destination :=
      hlast
    have hidx₂ :
        ({ v with state := VehicleState.no_passenger_queued } : Vehicle).pathIndex <
          ({ v with state := VehicleState.no_passenger_queued } : Vehicle).path.length :=
      hidx'
    obtain ⟨hp, hd, hs, hprog⟩ := IncrementalMove_progress mgr _ v₃ hlast' hidx₂ hmove
    have hs' : v₃.state = VehicleState.no_passenger_queued := hs
    rcases hprog with hin | ⟨hlen, harr⟩
    · by_cases harr : v₃.position = v₃.destination
      · rw [if_pos harr, if_pos hs']
        exact ⟨_, _, rfl, Or.inl rfl⟩
      · rw [if_neg harr]
        exact ⟨_, _, rfl, Or.inr ⟨by rw [hp, hd]; exact hlast, Or.inl hin⟩⟩
    · rw [if_pos harr, if_pos hs']
      exact ⟨_, _, rfl, Or.inl rfl⟩
  · rw [if_neg hreq]
    dsimp only
    by_cases hwait : v.state = VehicleState.waiting
    · rw [if_pos hwait]
      refine ⟨v, [], rfl, ?_⟩
      rcases hidx with h | ⟨hlen, _⟩
      · exact Or.inr ⟨hlast, Or.inl h⟩
      · exact Or.inr ⟨hlast, Or.inr ⟨hlen, hwait⟩⟩
    · rw [if_neg hwait]
      have hidx' : v.pathIndex < v.path.length := by
        rcases hidx with h | ⟨_, hw'⟩
        · exact h
        · exact absurd hw' hwait
      obtain ⟨v₃, hmove⟩ := IncrementalMove_isSome mgr v hidx'
      rw [hmove]
      dsimp only
      obtain ⟨hp, hd, hs, hprog⟩ := IncrementalMove_progress mgr v v₃ hlast hidx' hmove
      have hlast₃ : v₃.path.getLast? = some v₃.destination := by
        rw [hp, hd]; exact hlast
      rcases hprog with hin | ⟨hlen, harr⟩
      · by_cases harr : v₃.position = v₃.destination
        · rw [if_pos harr]
          by_cases h1 : v₃.state = VehicleState.no_passenger_queued
          · rw [if_pos h1]
            exact ⟨_, _, rfl, Or.inl rfl⟩
          · rw [if_neg h1]
            by_cases h2 : v₃.state = VehicleState.passenger_queued
            · rw [if_pos h2]
              dsimp only [VehicleManager.ArrivedAtPassenger]
              exact ⟨_, _, rfl, Or.inr ⟨hlast₃, Or.inl hin⟩⟩
            · rw [if_neg h2]
              by_cases h3 : v₃.state = VehicleState.driving_passenger
              · rw [if_pos h3]
                exact ⟨_, _, rfl, Or.inl rfl⟩
              · rw [if_neg h3]
                exact ⟨_, _, rfl, Or.inr ⟨hlast₃, Or.inl hin⟩⟩
        · rw [if_neg harr]
          exact ⟨_, _, rfl, Or.inr ⟨hlast₃, Or.inl hin⟩⟩
      · rw [if_pos harr]
        by_cases h1 : v₃.state = VehicleState.no_passenger_queued
        · rw [if_pos h1]
          exact ⟨_, _, rfl, Or.inl rfl⟩
        · rw [if_neg h1]
          by_cases h2 : v₃.state = VehicleState.passenger_queued
          · rw [if_pos h2]
            dsimp only [VehicleManager.ArrivedAtPassenger]
            exact ⟨_, _, rfl, Or.inr ⟨hlast₃, Or.inr ⟨hlen, rfl⟩⟩⟩
          · rw [if_neg h2]
            by_cases h3 : v₃.state = VehicleState.driving_passenger
            · rw [if_pos h3]
              exact ⟨_, _, rfl, Or.inl rfl⟩
            · -- impossible: the state is none of the five constructors
              exfalso
              rw [hs] at h1 h2 h3
              cases hst : v.state <;>
                first
                | exact hreq hst
                | exact hwait hst
                | exact h1 hst
                | exact h2 hst
                | exact h3 hst

/-- One drive iteration from a state satisfying the path invariant neither
escapes nor breaks the invariant, given the route-planner contract. -/
theorem DriveTick_safe_inv (mgr : VehicleManager)
    (astar : Vehicle → List Coordinate) (rand : Coordinate) (v : Vehicle)
    (hastar : AStarContract astar) (hv : PathInv v) :
    ∃ w msgs, mgr.DriveTick astar rand v = some (w, msgs) ∧ PathInv w := by
  unfold VehicleManager.DriveTick
  by_cases hp : v.path.isEmpty = true
  · rw [if_pos hp]
    dsimp only
    by_cases ha : (astar v).isEmpty = true
    · rw [if_pos ha]
      exact ⟨_, _, rfl, Or.inl rfl⟩
    · rw [if_neg ha]
      have hne : astar v ≠ [] := fun hc => ha (by rw [hc]; rfl)
      refine DriveTickBody_safe_inv mgr rand _ ?_ (Or.inl ?_)
      · exact hastar v hne
      · exact List.length_pos.mpr hne
  · rw [if_neg hp]
    rcases hv with hnil | ⟨hlast, hidx⟩
    · exact absurd (by rw [hnil]; rfl) hp
    · exact DriveTickBody_safe_inv mgr rand v hlast hidx

/-- Every state reachable through the manager's operations satisfies the
path invariant. -/
theorem PathInv_Reachable (mgr : VehicleManager)
    (astar : Vehicle → List Coordinate) (v : Vehicle)
    (hastar : AStarContract astar) (h : Reachable mgr astar v) : PathInv v := by
  induction h with
  | init start destination id => exact Or.inl rfl
  | tick rand v w msgs hr hw ih =>
    obtain ⟨w', msgs', hw', hinv⟩ := DriveTick_safe_inv mgr astar rand v hastar ih
    rw [hw] at hw'
    have hpair : (w, msgs) = (w', msgs') := Option.some.inj hw'
    have hww : w = w' := congrArg Prod.fst hpair
    rw [hww]
    exact hinv
  | assign position v hr ih => exact Or.inl rfl
  | intoVehicle p v hr ih => exact Or.inl rfl
  | dropOff rand v hr ih => exact Or.inl rfl

/-- Claim C10. Under the route-planner contract (a non-empty path ends at
the vehicle's node-aligned destination), from every state reachable by the
drive loop and the matcher callbacks, a drive iteration never escapes with
`std::out_of_range`: empty-path vehicles are routed or skipped before the
move, so the `path.at(path_index)` access inside `IncrementalMove` is
always in bounds and the iteration produces a vehicle. -/
theorem C10_at_in_bounds (mgr : VehicleManager)
    (astar : Vehicle → List Coordinate) (rand : Coordinate) (v : Vehicle)
    (hastar : AStarContract astar) (h : Reachable mgr astar v) :
    (mgr.DriveTick astar rand v).isSome := by
  obtain ⟨w, msgs, hw, _⟩ :=
    DriveTick_safe_inv mgr astar rand v hastar (PathInv_Reachable mgr astar v hastar h)
  rw [hw]
  rfl

/-- Claim C10, witness. The always-failing planner satisfies the contract
vacuously, the generated vehicle is reachable, and its drive iteration
returns a vehicle. -/
theorem C10_at_in_bounds_witness :
    AStarContract astarEmpty ∧
    Reachable mgrOne astarEmpty vehicleIdle ∧
    (mgrOne.DriveTick astarEmpty ⟨0, 0⟩ vehicleIdle).isSome :=
  ⟨fun _ hne => absurd rfl hne,
   Reachable.init ⟨0, 0⟩ ⟨0, 0⟩ 0,
   C10_at_in_bounds mgrOne astarEmpty ⟨0, 0⟩ vehicleIdle
     (fun _ hne => absurd rfl hne) (Reachable.init ⟨0, 0⟩ ⟨0, 0⟩ 0)⟩

end Rideshare
